import Mathlib

/-!
Verification of the selection-and-dispatch engine of the Oginx request-routing
proxy, shallowly embedded from the Python sources.

Embedding conventions:
* `Server` mirrors the dictionary built per record in
  `LoadBalancer._get_servers_from_db` (src/app/load_balancer.py).
* Machine-level details irrelevant to the verified properties (log lines,
  usage-counter increments, HTTP header scrubbing) are omitted; all control
  flow that decides routing, classification and caching is kept.
* Wall-clock times are natural numbers of seconds; the drawn random value of
  `random.uniform` is a rational; the random index of `random.choice` is a
  natural-number parameter.
* Network effects are abstracted by environments that fix, per server, the
  health-probe outcome, the resource-gate outcome and the backend's reply.
-/

/-- One advertised backend route: the dictionary built per `OllamaServer` row in
`LoadBalancer._get_servers_from_db`. -/
structure Server where
  id : Nat
  server_url : String
  actual_model_name : String
  weight : Int
  priority : Int
  type : String
  performance : Int
  skip_resource_check : Bool
  description : String
deriving DecidableEq, Repr

/-! ### Ranking: priority grouping and weight-descending order

`RequestProxy._proxy_model_request` buckets servers into `priority_groups`
(a Python dict: one key per distinct priority, in first-occurrence order),
iterates the keys through `sorted(...)`, and orders each bucket with
`_get_weighted_server_order` (Python's stable `sorted(..., reverse=True)` on
the weight). -/

/-- Keys of the Python dict `priority_groups`: distinct priorities in
first-occurrence order, accumulated exactly as the grouping loop scans the
server list and appends a key the first time it sees it. -/
def dictKeys (l : List Int) : List Int :=
  l.foldl (fun acc p => if p ∈ acc then acc else acc ++ [p]) []

/-- Insert into an ascending list (`sorted(priority_groups.keys())`). -/
def insortAsc (p : Int) : List Int → List Int
  | [] => [p]
  | q :: qs => if p ≤ q then p :: q :: qs else q :: insortAsc p qs

/-- Ascending sort of the priority keys. -/
def sortAsc : List Int → List Int
  | [] => []
  | p :: ps => insortAsc p (sortAsc ps)

/-- Stable insertion for the weight-descending order: a server is placed before
the first already-placed server whose weight it reaches, so equal weights keep
the earlier server first — exactly the order of Python's stable
`sorted(servers, key=weight, reverse=True)`. -/
def insertByWeight (s : Server) : List Server → List Server
  | [] => [s]
  | t :: ts => if t.weight ≤ s.weight then s :: t :: ts else t :: insertByWeight s ts

/-- Stable weight-descending sort of one priority tier. -/
def weightDescSort : List Server → List Server
  | [] => []
  | s :: ss => insertByWeight s (weightDescSort ss)

/-- Embedding of `RequestProxy._get_weighted_server_order`: weight-descending order with the
source's early returns for the empty and singleton lists. -/
def get_weighted_server_order (servers : List Server) : List Server :=
  match servers with
  | [] => []
  | [s] => [s]
  | _ => weightDescSort servers

/-- The full retry order used by both dispatch loops: priority keys ascending,
each tier in weight-descending stable order (the flattening of the two nested
`for` loops of `_proxy_model_request` / `proxy_streaming_request`). -/
def fullOrder (servers : List Server) : List Server :=
  (sortAsc (dictKeys (servers.map Server.priority))).flatMap
    (fun p => get_weighted_server_order (servers.filter (fun s => s.priority == p)))

/-! ### Buffered dispatch (`RequestProxy._proxy_model_request` /
`_try_single_server`)

Per-candidate failures are Python exceptions caught by the walk loop; the
embedding turns them into `Except.error` values of `DispatchError`. -/

/-- The per-candidate failure causes raised inside `_try_single_server` and the
streaming loop (the exception messages, structurally). `midStreamError` is an
exception caught inside an already-emitting stream generator. -/
inductive DispatchError
  | healthCheckFailed (serverUrl : String)
  | insufficientResources (serverUrl : String)
  | notFound (status : Nat)
  | serviceUnavailable (status : Nat)
  | serverError (status : Nat)
  | clientError (status : Nat)
  | requestTimeout (serverUrl : String)
  | connectionError (serverUrl : String)
  | midStreamError (message : String)
deriving DecidableEq, Repr

/-- Backend reply body for a buffered call: a JSON object (with or without a
`model` field) or a non-JSON text body. -/
inductive BackendBody
  | jsonBody (model : Option String) (content : String)
  | textBody (text : String)
deriving DecidableEq, Repr

/-- Outcome of a buffered backend HTTP call: `httpx` timeout, `httpx` request
error, or a response with a status code and body. -/
inductive BackendResult
  | timeout
  | connError
  | resp (status : Nat) (body : BackendBody)
deriving DecidableEq, Repr

/-- One chunk of a streamed backend body as iterated by `aiter_text`:
a JSON chunk (possibly carrying a `model` field), a non-JSON chunk passed
through verbatim, or the terminal `data: {"error": ...}` chunk the generator
emits after catching an exception. -/
inductive Chunk
  | jsonChunk (model : Option String) (content : String)
  | rawChunk (text : String)
  | errorChunk (err : DispatchError)
deriving DecidableEq, Repr

/-- Outcome of opening a streamed backend call: transport failure, or a status
line followed by the chunks the backend would deliver; `midStreamError`, when
set, is an exception thrown after those chunks were emitted. -/
inductive StreamBackendResult
  | timeout
  | connError
  | resp (status : Nat) (chunks : List Chunk) (midStreamError : Option String)
deriving DecidableEq, Repr

/-- The proxied response returned to the caller of buffered dispatch: the
backend JSON with the model name translated back, or the `{"response": text}`
wrapper used when the backend body is not JSON. -/
inductive ProxyResponse
  | jsonResp (model : Option String) (content : String)
  | textResp (text : String)
deriving DecidableEq, Repr

/-- Terminal (non-recoverable) dispatch failures: the 503 raised when the
registry has no servers for the virtual model, and the 503 raised after the
candidate walk is exhausted (carrying the server count and the last error). -/
inductive TerminalFailure
  | noServers
  | exhausted (totalServers : Nat) (lastError : Option DispatchError)
deriving DecidableEq, Repr

deriving instance DecidableEq for Except

/-- Per-server outcomes of the network: health probe result
(`LoadBalancer.check_server_health` folds every failure into `false`),
resource gate result as the `(is_sufficient, skipped)` pair returned by
`ResourceMonitorClient.check_server_resource`, and the backend's reply for
buffered and for streamed calls. -/
structure Env where
  healthy : Server → Bool
  resource : Server → Bool × Bool
  backend : Server → BackendResult
  backendStream : Server → StreamBackendResult

/-- Status classification of `_try_single_server` (lines 216-226): 404, 503,
other 5xx and other 4xx each raise; anything else falls through as success. -/
def classifyStatus (c : Nat) : Option DispatchError :=
  if c == 404 then some (.notFound c)
  else if c == 503 then some (.serviceUnavailable c)
  else if 500 ≤ c then some (.serverError c)
  else if 400 ≤ c then some (.clientError c)
  else none

/-- Status classification inside the stream generator of
`_create_streaming_response` (lines 433-445): 404, 5xx, other 4xx raise. -/
def classifyStreamStatus (c : Nat) : Option DispatchError :=
  if c == 404 then some (.notFound c)
  else if 500 ≤ c then some (.serverError c)
  else if 400 ≤ c then some (.clientError c)
  else none

/-- Response translation of `_try_single_server`: a JSON body's `model` field
is rewritten back to the virtual model name; a non-JSON body is wrapped as
`{"response": text}`. (The `models`-list rewrite for `/api/tags` replies is
not needed by any claim and is omitted.) -/
def translateBody (virtualName : String) : BackendBody → ProxyResponse
  | .jsonBody (some _) content => .jsonResp (some virtualName) content
  | .jsonBody none content => .jsonResp none content
  | .textBody text => .textResp text

/-- Embedding of `_try_single_server`: health probe, resource gate (skipped when the record
sets `skip_resource_check`; failing only when not sufficient *and* not
skipped), then the backend call with status classification and translation. -/
def trySingleServer (env : Env) (virtualName : String) (s : Server) :
    Except DispatchError ProxyResponse :=
  if env.healthy s then
    if s.skip_resource_check || (env.resource s).1 || (env.resource s).2 then
      match env.backend s with
      | .timeout => .error (.requestTimeout s.server_url)
      | .connError => .error (.connectionError s.server_url)
      | .resp status body =>
        match classifyStatus status with
        | some e => .error e
        | none => .ok (translateBody virtualName body)
    else .error (.insufficientResources s.server_url)
  else .error (.healthCheckFailed s.server_url)

/-- The candidate walk of `_proxy_model_request` over the flattened retry
order: each failing candidate updates `last_error` and the loop continues; the
first success returns. The returned list is the ordered sequence of attempted
candidates (the source's `total_attempts` trace). -/
def walkServers (env : Env) (virtualName : String) (total : Nat) :
    List Server → Option DispatchError →
    List Server × Except TerminalFailure ProxyResponse
  | [], lastError => ([], .error (.exhausted total lastError))
  | s :: rest, _lastError =>
    match trySingleServer env virtualName s with
    | .ok r => ([s], .ok r)
    | .error e =>
      let next := walkServers env virtualName total rest (some e)
      (s :: next.1, next.2)

/-- Embedding of `RequestProxy._proxy_model_request`: empty registry result raises the
no-servers 503; otherwise the nested priority/weight loops walk exactly
`fullOrder`. -/
def proxyModelRequest (env : Env) (virtualName : String) (servers : List Server) :
    List Server × Except TerminalFailure ProxyResponse :=
  if servers.isEmpty then ([], .error .noServers)
  else walkServers env virtualName servers.length (fullOrder servers) none

/-! ### Streaming dispatch (`RequestProxy.proxy_streaming_request` /
`_create_streaming_response`)

The loop of `proxy_streaming_request` gates each candidate on health and
resources only.  Once a candidate passes the gate, `_create_streaming_response`
builds the async generator `stream_generator` *without running it* and returns
the `StreamingResponse` immediately, so the loop's `try/except` never observes
a failure of the opening status line: that failure happens later, inside the
generator, whose own `except` converts it into a single emitted error chunk. -/

/-- The health/resource gate of the streaming loop body (lines 337-379):
`none` means the candidate is accepted and streaming starts. -/
def streamGate (env : Env) (s : Server) : Option DispatchError :=
  if env.healthy s then
    if s.skip_resource_check || (env.resource s).1 || (env.resource s).2 then none
    else some (.insufficientResources s.server_url)
  else some (.healthCheckFailed s.server_url)

/-- Model-name rewrite applied to each streamed chunk (lines 453-463):
JSON chunks carrying a `model` field are rewritten to the virtual name; other
chunks pass through verbatim. -/
def rewriteChunk (virtualName : String) : Chunk → Chunk
  | .jsonChunk (some _) content => .jsonChunk (some virtualName) content
  | c => c

/-- The chunk sequence `stream_generator` delivers to the caller.  All
exceptions — transport errors, the opening-status-line classification and
mid-stream failures — are caught by the generator's own `except` and emitted
as a terminal error chunk; none of them propagates to the candidate loop. -/
def streamGenerator (virtualName : String) (s : Server) :
    StreamBackendResult → List Chunk
  | .timeout => [.errorChunk (.requestTimeout s.server_url)]
  | .connError => [.errorChunk (.connectionError s.server_url)]
  | .resp status chunks midStreamError =>
    match classifyStreamStatus status with
    | some e => [.errorChunk e]
    | none =>
      let delivered := chunks.map (rewriteChunk virtualName)
      match midStreamError with
      | some msg => delivered ++ [.errorChunk (.midStreamError msg)]
      | none => delivered

/-- The candidate walk of `proxy_streaming_request`: gate failures advance the
loop; the first gated-through candidate is returned together with the chunks
its generator will emit — regardless of its backend's status line. -/
def streamWalk (env : Env) (virtualName : String) (total : Nat) :
    List Server → Option DispatchError →
    List Server × Except TerminalFailure (Server × List Chunk)
  | [], lastError => ([], .error (.exhausted total lastError))
  | s :: rest, _lastError =>
    match streamGate env s with
    | some e =>
      let next := streamWalk env virtualName total rest (some e)
      (s :: next.1, next.2)
    | none => ([s], .ok (s, streamGenerator virtualName s (env.backendStream s)))

/-- Embedding of `RequestProxy.proxy_streaming_request`. -/
def proxyStreamingRequest (env : Env) (virtualName : String)
    (servers : List Server) :
    List Server × Except TerminalFailure (Server × List Chunk) :=
  if servers.isEmpty then ([], .error .noServers)
  else streamWalk env virtualName servers.length (fullOrder servers) none

/-! ### Resource gate (`ResourceMonitorClient`,
src/app/resource_monitor_client.py) with the constants of
src/app/resource_cache_config.py -/

/-- Constant `SAME_MODEL_INTERVAL` of resource_cache_config.py. -/
def SAME_MODEL_INTERVAL : Nat := 1200

/-- Constant `MODEL_USAGE_WINDOW` of resource_cache_config.py. -/
def MODEL_USAGE_WINDOW : Nat := 2400

/-- The `_model_usage_history` dict: association list from
`(server_url, model_name)` to the last check time, in insertion order. -/
abbrev UsageHistory := List ((String × String) × Nat)

/-- Dict read: first (only) entry for the key. -/
def lookupUsage (st : UsageHistory) (key : String × String) : Option Nat :=
  (st.find? (fun e => e.1 == key)).map (fun e => e.2)

/-- Dict write `self._model_usage_history[key] = t`: replace in place, or
append when the key is new. -/
def setUsage : UsageHistory → String × String → Nat → UsageHistory
  | [], key, t => [(key, t)]
  | e :: es, key, t => if e.1 == key then (key, t) :: es else e :: setUsage es key t

/-- The expiry sweep of `_track_model_usage`: drop entries older than
`MODEL_USAGE_WINDOW`. -/
def purgeExpired (st : UsageHistory) (now : Nat) : UsageHistory :=
  st.filter (fun e => decide (now - e.2 ≤ MODEL_USAGE_WINDOW))

/-- Embedding of `ResourceMonitorClient._track_model_usage`: record the check time, then
purge expired entries. -/
def track_model_usage (st : UsageHistory) (serverUrl modelName : String)
    (now : Nat) : UsageHistory :=
  purgeExpired (setUsage st (serverUrl, modelName) now) now

/-- Embedding of `ResourceMonitorClient._should_skip_resource_check`: skip iff the entry
(defaulting to time 0 when absent) is younger than `SAME_MODEL_INTERVAL`. -/
def should_skip_resource_check (st : UsageHistory) (serverUrl modelName : String)
    (now : Nat) : Bool :=
  let lastUsageTime := (lookupUsage st (serverUrl, modelName)).getD 0
  now - lastUsageTime < SAME_MODEL_INTERVAL

/-- The parsed body of the resource-monitor's `/resource-check` reply:
a `status == "success"` payload with its data fields, a non-success payload
with its message, or a body that fails JSON parsing. -/
inductive MonitorPayload
  | success (sufficient : Bool) (available_gb total_gb usage_percent : ℚ)
  | failure (message : String)
  | malformed
deriving DecidableEq

/-- Outcome of the HTTP call to the resource monitor. -/
inductive RemoteResult
  | timeout
  | connError
  | httpResp (status : Nat) (payload : MonitorPayload)
deriving DecidableEq

/-- The second component of `check_server_resource`'s return value: the
skip marker dict, the reported data dict, or the error dict. -/
inductive CheckInfo
  | skippedInfo (reason : String)
  | dataInfo (sufficient : Bool) (available_gb total_gb usage_percent : ℚ)
  | errorInfo (message : String)
deriving DecidableEq

/-- Result of one `check_server_resource` call, together with the cache state
it leaves behind and whether the remote monitor was contacted. -/
structure CheckResult where
  sufficient : Bool
  info : CheckInfo
  history : UsageHistory
  remoteCalled : Bool
deriving DecidableEq

/-- Embedding of `ResourceMonitorClient.check_server_resource`.  The remote call itself is
abstracted by the `remote` parameter; `server_type` and `performance_gb` only
shape that call (port choice and request payload) and do not influence the
result computation. -/
def check_server_resource (st : UsageHistory) (serverUrl : String)
    (serverType : String) (performanceGB : Int) (modelName : Option String)
    (now : Nat) (remote : RemoteResult) : CheckResult :=
  let _ := serverType
  let _ := performanceGB
  if (match modelName with
      | some m => should_skip_resource_check st serverUrl m now
      | none => false) then
    { sufficient := true, info := .skippedInfo "same_model_concurrent",
      history := st, remoteCalled := false }
  else
    match remote with
    | .timeout =>
      { sufficient := false, info := .errorInfo "resource monitor timed out",
        history := st, remoteCalled := true }
    | .connError =>
      { sufficient := false, info := .errorInfo "resource monitor unreachable",
        history := st, remoteCalled := true }
    | .httpResp status payload =>
      if status == 200 then
        match payload with
        | .success suff available total usage =>
          let st' := match modelName with
            | some m => track_model_usage st serverUrl m now
            | none => st
          { sufficient := suff, info := .dataInfo suff available total usage,
            history := st', remoteCalled := true }
        | .failure msg =>
          { sufficient := false, info := .errorInfo msg,
            history := st, remoteCalled := true }
        | .malformed =>
          { sufficient := false, info := .errorInfo "resource check exception",
            history := st, remoteCalled := true }
      else
        { sufficient := false, info := .errorInfo "resource monitor bad status",
          history := st, remoteCalled := true }

/-- The well-formed success shape (`HTTP 200` with a `status == "success"`
payload) — the only remote outcome `check_server_resource` trusts. -/
def remoteSucceeded : RemoteResult → Bool
  | .httpResp 200 (.success _ _ _ _) => true
  | _ => false

/-! ### Weighted-random single pick (`LoadBalancer._weighted_random_select`,
src/app/load_balancer.py lines 180-205) -/

/-- The source's `total_weight = sum(server['weight'] for server in servers)`. -/
def weightSum (servers : List Server) : Int :=
  (servers.map Server.weight).sum

/-- The cumulative-weight walk: `current_weight += w; if random_value <=
current_weight: return server`, threading the running total. -/
def cumulativeWalk (u : ℚ) : List Server → ℚ → Option Server
  | [], _ => none
  | s :: rest, current =>
    if u ≤ current + (s.weight : ℚ) then some s
    else cumulativeWalk u rest (current + (s.weight : ℚ))

/-- Sum of the first `n` weights, as a rational. -/
def prefixWeightSum : List Server → Nat → ℚ
  | _, 0 => 0
  | [], _ + 1 => 0
  | s :: rest, n + 1 => (s.weight : ℚ) + prefixWeightSum rest n

/-- Embedding of `LoadBalancer._weighted_random_select`.  `u` is the value drawn by
`random.uniform(0, total_weight)`; `k` determines the index drawn by
`random.choice` in the nonpositive-total branch. -/
def weighted_random_select (servers : List Server) (u : ℚ) (k : Nat) :
    Option Server :=
  match servers with
  | [] => none
  | [s] => some s
  | _ =>
    if weightSum servers ≤ 0 then servers[k % servers.length]?
    else
      match cumulativeWalk u servers 0 with
      | some s => some s
      | none => servers.getLast?

/-! ### Derived notions used by the statements -/

/-- The ordering relation the full retry order satisfies: strictly ascending
priority, and within equal priority no increase in weight. -/
def tierOrdered (a b : Server) : Prop :=
  a.priority < b.priority ∨ (a.priority = b.priority ∧ b.weight ≤ a.weight)

/-- The failure a candidate produces under an environment (`none` on
success). -/
def errOf (env : Env) (virtualName : String) (s : Server) :
    Option DispatchError :=
  match trySingleServer env virtualName s with
  | .error e => some e
  | .ok _ => none

/-! ### Concrete scenarios referenced by the theorems -/

/-- Priority-1 server A with weight 30 (spec §8's exhaustive-retry example). -/
def serverA : Server :=
  { id := 1, server_url := "http://a", actual_model_name := "m-a",
    weight := 30, priority := 1, type := "CPU", performance := 8,
    skip_resource_check := false, description := "" }

/-- Priority-1 server B with weight 70. -/
def serverB : Server :=
  { id := 2, server_url := "http://b", actual_model_name := "m-b",
    weight := 70, priority := 1, type := "CPU", performance := 8,
    skip_resource_check := false, description := "" }

/-- Priority-2 server C with weight 100. -/
def serverC : Server :=
  { id := 3, server_url := "http://c", actual_model_name := "m-c",
    weight := 100, priority := 2, type := "GPU", performance := 16,
    skip_resource_check := false, description := "" }

/-- The environment of spec §8's example: A and B fail their health probe,
C is healthy, resource-sufficient and answers 200 with a JSON body naming its
actual model. -/
def envTiers : Env :=
  { healthy := fun s => s.server_url == "http://c",
    resource := fun _ => (true, false),
    backend := fun s =>
      if s.server_url == "http://c" then .resp 200 (.jsonBody (some "m-c") "hello")
      else .resp 500 (.textBody ""),
    backendStream := fun _ => .connError }

/-- First streaming candidate (higher weight, tried first): healthy and
resource-sufficient, but its opening status line is a 404. -/
def streamS1 : Server :=
  { id := 11, server_url := "http://s1", actual_model_name := "m-s1",
    weight := 70, priority := 1, type := "CPU", performance := 8,
    skip_resource_check := false, description := "" }

/-- Second streaming candidate: healthy, resource-sufficient, would stream a
well-formed chunk. -/
def streamS2 : Server :=
  { id := 12, server_url := "http://s2", actual_model_name := "m-s2",
    weight := 30, priority := 1, type := "CPU", performance := 8,
    skip_resource_check := false, description := "" }

/-- Streaming environment: both candidates pass the health/resource gate; the
first one's stream opens with a 404 status line, the second would stream
successfully. -/
def envStream : Env :=
  { healthy := fun _ => true,
    resource := fun _ => (true, false),
    backend := fun _ => .connError,
    backendStream := fun s =>
      if s.server_url == "http://s1" then .resp 404 [] none
      else .resp 200 [.jsonChunk (some "m-s2") "tok"] none }

/-- A zero-weight server, for the nonpositive-total-weight selection branch. -/
def serverZ1 : Server :=
  { id := 21, server_url := "http://z1", actual_model_name := "m-z1",
    weight := 0, priority := 1, type := "CPU", performance := 8,
    skip_resource_check := false, description := "" }

/-- A second zero-weight server. -/
def serverZ2 : Server :=
  { id := 22, server_url := "http://z2", actual_model_name := "m-z2",
    weight := 0, priority := 1, type := "CPU", performance := 8,
    skip_resource_check := false, description := "" }

/-- Environment in which every backend is unreachable: health probes succeed,
resources suffice, but each buffered call times out. -/
def envAllFail : Env :=
  { healthy := fun _ => true,
    resource := fun _ => (true, false),
    backend := fun _ => .timeout,
    backendStream := fun _ => .timeout }

/-! ## Lemmas: the weight-descending stable sort -/

theorem mem_insertByWeight {a s : Server} {l : List Server} :
    a ∈ insertByWeight s l ↔ a = s ∨ a ∈ l := by
  induction l with
  | nil => simp [insertByWeight]
  | cons t ts ih =>
    by_cases h : t.weight ≤ s.weight
    · simp [insertByWeight, h]
    · simp only [insertByWeight, if_neg h, List.mem_cons, ih]
      tauto

theorem perm_insertByWeight (s : Server) (l : List Server) :
    (insertByWeight s l).Perm (s :: l) := by
  induction l with
  | nil => simp [insertByWeight]
  | cons t ts ih =>
    by_cases h : t.weight ≤ s.weight
    · simp [insertByWeight, h]
    · rw [show insertByWeight s (t :: ts) = t :: insertByWeight s ts from by
        simp [insertByWeight, h]]
      exact (ih.cons t).trans (List.Perm.swap s t ts)

theorem perm_weightDescSort (l : List Server) : (weightDescSort l).Perm l := by
  induction l with
  | nil => simp [weightDescSort]
  | cons s ss ih =>
    exact (perm_insertByWeight s (weightDescSort ss)).trans (ih.cons s)

theorem pairwise_insertByWeight {s : Server} {l : List Server}
    (h : l.Pairwise (fun a b => b.weight ≤ a.weight)) :
    (insertByWeight s l).Pairwise (fun a b => b.weight ≤ a.weight) := by
  induction l with
  | nil => simp [insertByWeight]
  | cons t ts ih =>
    rcases List.pairwise_cons.mp h with ⟨ht, hts⟩
    by_cases hw : t.weight ≤ s.weight
    · rw [show insertByWeight s (t :: ts) = s :: t :: ts from by
        simp [insertByWeight, hw]]
      refine List.pairwise_cons.mpr ⟨?_, h⟩
      intro b hb
      rcases List.mem_cons.mp hb with rfl | hb
      · exact hw
      · exact le_trans (ht b hb) hw
    · rw [show insertByWeight s (t :: ts) = t :: insertByWeight s ts from by
        simp [insertByWeight, hw]]
      refine List.pairwise_cons.mpr ⟨?_, ih hts⟩
      intro b hb
      rcases mem_insertByWeight.mp hb with rfl | hb
      · exact (not_le.mp hw).le
      · exact ht b hb

theorem pairwise_weightDescSort (l : List Server) :
    (weightDescSort l).Pairwise (fun a b => b.weight ≤ a.weight) := by
  induction l with
  | nil => simp [weightDescSort]
  | cons s ss ih => exact pairwise_insertByWeight ih

theorem filter_insertByWeight (w : Int) (s : Server) (l : List Server) :
    (insertByWeight s l).filter (fun t => t.weight == w)
      = if s.weight == w then s :: l.filter (fun t => t.weight == w)
        else l.filter (fun t => t.weight == w) := by
  induction l with
  | nil => by_cases h : s.weight == w <;> simp [insertByWeight, h]
  | cons t ts ih =>
    by_cases hw : t.weight ≤ s.weight
    · rw [show insertByWeight s (t :: ts) = s :: t :: ts from by
        simp [insertByWeight, hw]]
      by_cases h : s.weight == w <;> simp [List.filter_cons, h]
    · rw [show insertByWeight s (t :: ts) = t :: insertByWeight s ts from by
        simp [insertByWeight, hw]]
      by_cases h : s.weight == w
      · have hsw : s.weight = w := by simpa using h
        have htw : (t.weight == w) = false := by
          have hlt : s.weight < t.weight := not_le.mp hw
          simp only [beq_eq_false_iff_ne, ne_eq]
          intro hc
          exact absurd (hsw ▸ hc) (ne_of_gt hlt)
        simp [List.filter_cons, htw, ih, h]
      · simp [List.filter_cons, ih, h]

theorem filter_weightDescSort (w : Int) (l : List Server) :
    (weightDescSort l).filter (fun t => t.weight == w)
      = l.filter (fun t => t.weight == w) := by
  induction l with
  | nil => rfl
  | cons s ss ih =>
    show (insertByWeight s (weightDescSort ss)).filter _ = _
    rw [filter_insertByWeight]
    by_cases h : s.weight == w <;> simp [List.filter_cons, h, ih]

theorem gwso_eq_weightDescSort (l : List Server) :
    get_weighted_server_order l = weightDescSort l := by
  match l with
  | [] => rfl
  | [_] => rfl
  | _ :: _ :: _ => rfl

/-! ## Lemmas: the ascending key sort and the dict keys -/

theorem mem_insortAsc {a p : Int} {l : List Int} :
    a ∈ insortAsc p l ↔ a = p ∨ a ∈ l := by
  induction l with
  | nil => simp [insortAsc]
  | cons q qs ih =>
    by_cases h : p ≤ q
    · simp [insortAsc, h]
    · simp only [insortAsc, if_neg h, List.mem_cons, ih]
      tauto

theorem perm_insortAsc (p : Int) (l : List Int) :
    (insortAsc p l).Perm (p :: l) := by
  induction l with
  | nil => simp [insortAsc]
  | cons q qs ih =>
    by_cases h : p ≤ q
    · simp [insortAsc, h]
    · rw [show insortAsc p (q :: qs) = q :: insortAsc p qs from by
        simp [insortAsc, h]]
      exact (ih.cons q).trans (List.Perm.swap p q qs)

theorem perm_sortAsc (l : List Int) : (sortAsc l).Perm l := by
  induction l with
  | nil => simp [sortAsc]
  | cons p ps ih => exact (perm_insortAsc p (sortAsc ps)).trans (ih.cons p)

theorem pairwise_insortAsc {p : Int} {l : List Int}
    (h : l.Pairwise (· ≤ ·)) : (insortAsc p l).Pairwise (· ≤ ·) := by
  induction l with
  | nil => simp [insortAsc]
  | cons q qs ih =>
    rcases List.pairwise_cons.mp h with ⟨hq, hqs⟩
    by_cases hw : p ≤ q
    · rw [show insortAsc p (q :: qs) = p :: q :: qs from by simp [insortAsc, hw]]
      refine List.pairwise_cons.mpr ⟨?_, h⟩
      intro b hb
      rcases List.mem_cons.mp hb with rfl | hb
      · exact hw
      · exact le_trans hw (hq b hb)
    · rw [show insortAsc p (q :: qs) = q :: insortAsc p qs from by
        simp [insortAsc, hw]]
      refine List.pairwise_cons.mpr ⟨?_, ih hqs⟩
      intro b hb
      rcases mem_insortAsc.mp hb with rfl | hb
      · exact (not_le.mp hw).le
      · exact hq b hb

theorem pairwise_sortAsc (l : List Int) : (sortAsc l).Pairwise (· ≤ ·) := by
  induction l with
  | nil => simp [sortAsc]
  | cons p ps ih => exact pairwise_insortAsc ih

theorem pairwise_lt_sortAsc {l : List Int} (h : l.Nodup) :
    (sortAsc l).Pairwise (· < ·) := by
  have h1 := pairwise_sortAsc l
  have h2 : (sortAsc l).Nodup := ((perm_sortAsc l).nodup_iff).mpr h
  exact ((h1.and h2).imp (fun hab => lt_of_le_of_ne hab.1 hab.2))

theorem mem_dictKeys_go (l : List Int) (acc : List Int) (q : Int) :
    q ∈ l.foldl (fun acc p => if p ∈ acc then acc else acc ++ [p]) acc
      ↔ q ∈ acc ∨ q ∈ l := by
  induction l generalizing acc with
  | nil => simp
  | cons p ps ih =>
    rw [List.foldl_cons, ih]
    by_cases hp : p ∈ acc
    · rw [if_pos hp]
      constructor
      · rintro (h | h)
        · exact Or.inl h
        · exact Or.inr (List.mem_cons_of_mem p h)
      · rintro (h | h)
        · exact Or.inl h
        · rcases List.mem_cons.mp h with rfl | h
          · exact Or.inl hp
          · exact Or.inr h
    · rw [if_neg hp]
      simp only [List.mem_append, List.mem_singleton, List.mem_cons]
      tauto

theorem nodup_dictKeys_go (l : List Int) (acc : List Int) (h : acc.Nodup) :
    (l.foldl (fun acc p => if p ∈ acc then acc else acc ++ [p]) acc).Nodup := by
  induction l generalizing acc with
  | nil => simpa using h
  | cons p ps ih =>
    rw [List.foldl_cons]
    by_cases hp : p ∈ acc
    · rw [if_pos hp]; exact ih acc h
    · rw [if_neg hp]
      refine ih _ (List.nodup_append.mpr ⟨h, List.nodup_singleton p, ?_⟩)
      exact List.disjoint_singleton.mpr hp

theorem mem_dictKeys {l : List Int} {q : Int} : q ∈ dictKeys l ↔ q ∈ l := by
  rw [dictKeys, mem_dictKeys_go]
  simp

theorem nodup_dictKeys (l : List Int) : (dictKeys l).Nodup :=
  nodup_dictKeys_go l [] List.nodup_nil

/-! ## Lemmas: the priority partition underlying `fullOrder` -/

theorem flatMap_filter_perm (ks : List Int) (l : List Server)
    (hnd : ks.Nodup) (hcov : ∀ s ∈ l, s.priority ∈ ks) :
    (ks.flatMap (fun p => l.filter (fun s => s.priority == p))).Perm l := by
  induction ks generalizing l with
  | nil =>
    have hl : l = [] := by
      cases l with
      | nil => rfl
      | cons s ss => exact absurd (hcov s (by simp)) (by simp)
    simp [hl]
  | cons k ks ih =>
    rcases List.nodup_cons.mp hnd with ⟨hk, hnd'⟩
    rw [List.flatMap_cons]
    have hrw : ∀ p ∈ ks, l.filter (fun s => s.priority == p)
        = (l.filter (fun s => !(s.priority == k))).filter
            (fun s => s.priority == p) := by
      intro p hp
      rw [List.filter_filter]
      apply List.filter_congr
      intro s _hs
      cases hps : (s.priority == p) with
      | false => simp
      | true =>
        have hsp : s.priority = p := by simpa using hps
        have hpk : p ≠ k := fun h => hk (h ▸ hp)
        simp [hsp, hpk]
    have hflat : ks.flatMap (fun p => l.filter (fun s => s.priority == p))
        = ks.flatMap (fun p => (l.filter (fun s => !(s.priority == k))).filter
            (fun s => s.priority == p)) := by
      rw [List.flatMap_def, List.flatMap_def, List.map_congr_left hrw]
    have hcov' : ∀ s ∈ l.filter (fun s => !(s.priority == k)),
        s.priority ∈ ks := by
      intro s hs
      rcases List.mem_filter.mp hs with ⟨hsl, hnk⟩
      rcases List.mem_cons.mp (hcov s hsl) with h | h
      · exact absurd h (by simpa using hnk)
      · exact h
    have hperm := ih (l.filter (fun s => !(s.priority == k))) hnd' hcov'
    rw [hflat]
    exact ((List.Perm.refl (l.filter (fun s => s.priority == k))).append
      hperm).trans (List.filter_append_perm _ l)

theorem fullOrder_perm (l : List Server) : (fullOrder l).Perm l := by
  rw [fullOrder]
  have h1 : (sortAsc (dictKeys (l.map Server.priority))).flatMap
        (fun p => get_weighted_server_order
          (l.filter (fun s => s.priority == p)))
      = (sortAsc (dictKeys (l.map Server.priority))).flatMap
        (fun p => weightDescSort (l.filter (fun s => s.priority == p))) := by
    rw [List.flatMap_def, List.flatMap_def]
    exact congrArg List.flatten (List.map_congr_left
      (fun p _ => gwso_eq_weightDescSort _))
  rw [h1]
  have hperm1 : ((sortAsc (dictKeys (l.map Server.priority))).flatMap
        (fun p => weightDescSort (l.filter (fun s => s.priority == p)))).Perm
      ((sortAsc (dictKeys (l.map Server.priority))).flatMap
        (fun p => l.filter (fun s => s.priority == p))) := by
    generalize sortAsc (dictKeys (l.map Server.priority)) = ks
    induction ks with
    | nil => simp
    | cons k ks ihk =>
      rw [List.flatMap_cons, List.flatMap_cons]
      exact (perm_weightDescSort _).append ihk
  refine hperm1.trans (flatMap_filter_perm _ l ?_ ?_)
  · exact ((perm_sortAsc _).nodup_iff).mpr (nodup_dictKeys _)
  · intro s hs
    rw [(perm_sortAsc _).mem_iff, mem_dictKeys]
    exact List.mem_map.mpr ⟨s, hs, rfl⟩

theorem mem_tier_priority {l : List Server} {p : Int} {x : Server}
    (hx : x ∈ get_weighted_server_order (l.filter (fun s => s.priority == p))) :
    x.priority = p ∧ x ∈ l := by
  rw [gwso_eq_weightDescSort] at hx
  have hx' := (perm_weightDescSort _).mem_iff.mp hx
  rcases List.mem_filter.mp hx' with ⟨hxl, hxp⟩
  exact ⟨by simpa using hxp, hxl⟩

theorem fullOrder_pairwise (l : List Server) :
    (fullOrder l).Pairwise tierOrdered := by
  rw [fullOrder, List.flatMap_def]
  rw [List.pairwise_flatten]
  constructor
  · intro bl hbl
    rcases List.mem_map.mp hbl with ⟨p, _hp, rfl⟩
    have hpw : (get_weighted_server_order
        (l.filter (fun s => s.priority == p))).Pairwise
          (fun a b => b.weight ≤ a.weight) := by
      rw [gwso_eq_weightDescSort]
      exact pairwise_weightDescSort _
    refine hpw.imp_of_mem ?_
    intro a b ha hb hw
    have hap := (mem_tier_priority ha).1
    have hbp := (mem_tier_priority hb).1
    exact Or.inr ⟨hap.trans hbp.symm, hw⟩
  · rw [List.pairwise_map]
    have hlt : (sortAsc (dictKeys (l.map Server.priority))).Pairwise (· < ·) :=
      pairwise_lt_sortAsc (nodup_dictKeys _)
    refine hlt.imp_of_mem ?_
    intro p q _hp _hq hpq x hx y hy
    have hxp := (mem_tier_priority hx).1
    have hyq := (mem_tier_priority hy).1
    exact Or.inl (by rw [hxp, hyq]; exact hpq)

theorem flatMap_eq_single {α β : Type} (f : α → List β) (ks : List α) (p : α)
    (hnd : ks.Nodup) (hp : p ∈ ks) (hz : ∀ k ∈ ks, k ≠ p → f k = []) :
    ks.flatMap f = f p := by
  induction ks with
  | nil => cases hp
  | cons k ks ihk =>
    rcases List.nodup_cons.mp hnd with ⟨hk, hnd'⟩
    rw [List.flatMap_cons]
    rcases List.mem_cons.mp hp with rfl | hp'
    · have hz' : ks.flatMap f = [] := by
        apply List.flatMap_eq_nil_iff.mpr
        intro q hq
        exact hz q (List.mem_cons_of_mem _ hq) (fun h => hk (h ▸ hq))
      rw [hz', List.append_nil]
    · have hkp : k ≠ p := fun h => hk (h ▸ hp')
      rw [hz k (List.mem_cons_self k ks) hkp, List.nil_append]
      exact ihk hnd' hp' (fun q hq => hz q (List.mem_cons_of_mem k hq))

theorem fullOrder_filter_stable (l : List Server) (p w : Int) :
    (fullOrder l).filter (fun s => s.priority == p && s.weight == w)
      = l.filter (fun s => s.priority == p && s.weight == w) := by
  rw [fullOrder, List.filter_flatMap]
  by_cases hp : p ∈ sortAsc (dictKeys (l.map Server.priority))
  · rw [flatMap_eq_single _ _ p
      (((perm_sortAsc _).nodup_iff).mpr (nodup_dictKeys _)) hp ?czero]
    case czero =>
      intro k _hk hkp
      apply List.filter_eq_nil_iff.mpr
      intro x hx
      have hxk := (mem_tier_priority hx).1
      simp [hxk, hkp]
    rw [gwso_eq_weightDescSort]
    have hcongr : (weightDescSort (l.filter (fun s => s.priority == p))).filter
          (fun s => s.priority == p && s.weight == w)
        = (weightDescSort (l.filter (fun s => s.priority == p))).filter
          (fun s => s.weight == w) := by
      apply List.filter_congr
      intro x hx
      have hxp : x.priority = p := by
        have := (perm_weightDescSort _).mem_iff.mp hx
        simpa using (List.mem_filter.mp this).2
      simp [hxp]
    rw [hcongr, filter_weightDescSort, List.filter_filter]
    apply List.filter_congr
    intro x _hx
    cases hxp : (x.priority == p) <;> cases hxw : (x.weight == w) <;> simp [hxp, hxw]
  · have hnone : ∀ s ∈ l, s.priority ≠ p := by
      intro s hs hsp
      exact hp (by
        rw [(perm_sortAsc _).mem_iff, mem_dictKeys]
        exact List.mem_map.mpr ⟨s, hs, hsp⟩)
    have hrhs : l.filter (fun s => s.priority == p && s.weight == w) = [] := by
      apply List.filter_eq_nil_iff.mpr
      intro x hx
      simp [hnone x hx]
    rw [hrhs]
    apply List.flatMap_eq_nil_iff.mpr
    intro k hk
    apply List.filter_eq_nil_iff.mpr
    intro x hx
    have hxk := (mem_tier_priority hx).1
    have hxnp : x.priority ≠ p := hnone x (mem_tier_priority hx).2
    simp only [Bool.and_eq_true, beq_iff_eq, not_and]
    intro hcontra
    exact absurd hcontra hxnp

/-- C1: for every list of server records of a virtual model, the full retry
order used by buffered dispatch is a rearrangement of the input that groups
candidates strictly by ascending priority and, within each priority group,
sorts them by descending weight; the sub-sequence of candidates sharing any
fixed priority and weight is exactly the input's sub-sequence (stable
tie-break: equal weights keep registry return order); and recomputation on the
same input yields the identical ordering. -/
theorem C1_fullOrder_ordering (l : List Server) :
    (fullOrder l).Perm l ∧
    (fullOrder l).Pairwise tierOrdered ∧
    (∀ p w, (fullOrder l).filter (fun s => s.priority == p && s.weight == w)
        = l.filter (fun s => s.priority == p && s.weight == w)) ∧
    fullOrder l = fullOrder l :=
  ⟨fullOrder_perm l, fullOrder_pairwise l,
    fun p w => fullOrder_filter_stable l p w, rfl⟩

/-! ## Lemmas: the buffered candidate walk -/

theorem walkServers_cons_error (env : Env) (vname : String) (total : Nat)
    (s : Server) (rest : List Server) (le : Option DispatchError)
    {e : DispatchError} (h : trySingleServer env vname s = .error e) :
    walkServers env vname total (s :: rest) le
      = (s :: (walkServers env vname total rest (some e)).1,
         (walkServers env vname total rest (some e)).2) := by
  simp [walkServers, h]

theorem walkServers_cons_ok (env : Env) (vname : String) (total : Nat)
    (s : Server) (rest : List Server) (le : Option DispatchError)
    {r : ProxyResponse} (h : trySingleServer env vname s = .ok r) :
    walkServers env vname total (s :: rest) le = ([s], .ok r) := by
  simp [walkServers, h]

theorem walkServers_all_fail (env : Env) (vname : String) (total : Nat) :
    ∀ (cs : List Server) (le : Option DispatchError), cs ≠ [] →
    (∀ s ∈ cs, ∃ e, trySingleServer env vname s = .error e) →
    ∃ t e, cs.getLast? = some t ∧ trySingleServer env vname t = .error e ∧
      walkServers env vname total cs le = (cs, .error (.exhausted total (some e)))
  | [], _, hne, _ => absurd rfl hne
  | [s], le, _, hfail => by
    rcases hfail s (by simp) with ⟨e, he⟩
    refine ⟨s, e, rfl, he, ?_⟩
    rw [walkServers_cons_error env vname total s [] le he]
    simp [walkServers]
  | s :: r :: rest, le, _, hfail => by
    rcases hfail s (by simp) with ⟨e, he⟩
    rcases walkServers_all_fail env vname total (r :: rest) (some e) (by simp)
      (fun t ht => hfail t (List.mem_cons_of_mem s ht)) with ⟨t, e', h1, h2, h3⟩
    refine ⟨t, e', by rw [List.getLast?_cons_cons]; exact h1, h2, ?_⟩
    rw [walkServers_cons_error env vname total s (r :: rest) le he, h3]

/-! ## C2: the spec's exhaustive-retry example -/

/-- C2 counterexample: with tiers priority 1 = A(weight 30), B(weight 70) and
priority 2 = C(weight 100), A and B unhealthy and C healthy and sufficient,
the candidates attempted by buffered dispatch are *not* A, B, C in that order
(the weight-descending tier order tries B before A). -/
theorem C2_counterexample :
    (proxyModelRequest envTiers "vm" [serverA, serverB, serverC]).1
      ≠ [serverA, serverB, serverC] := by decide

/-- C2 (amended): in the same scenario, buffered dispatch attempts B, then A,
then C — weight-descending inside priority 1, then priority 2 — and returns
C's response with the model name translated back to the virtual name, having
exhausted both tiers before succeeding on C. -/
theorem C2_amended_order :
    proxyModelRequest envTiers "vm" [serverA, serverB, serverC]
      = ([serverB, serverA, serverC], .ok (.jsonResp (some "vm") "hello")) := by
  decide

/-! ## C3: streaming dispatch and the opening status line -/

/-- C3 (code behaviour at the claim's failing input): two streaming candidates
both pass the health and resource gates; the first-ordered one's stream opens
with a 404 status line.  The claim says that candidate is abandoned before any
chunk is emitted and the second candidate is tried; the code instead returns
the first candidate's `StreamingResponse` — the status line is only read
inside the lazily-run generator, whose own `except` emits the failure to the
caller as a terminal error chunk — so only one candidate is ever attempted and
no fallback occurs. -/
theorem C3_stream_no_fallback_before_first_chunk :
    proxyStreamingRequest envStream "vm" [streamS1, streamS2]
      = ([streamS1], .ok (streamS1, [.errorChunk (.notFound 404)])) := by
  decide

/-! ## C4: buffered status classification -/

theorem classifyStatus_isSome_of_ge (c : Nat) (h : 400 ≤ c) :
    ∃ e, classifyStatus c = some e := by
  unfold classifyStatus
  split_ifs with h1 h2 h3
  · exact ⟨_, rfl⟩
  · exact ⟨_, rfl⟩
  · exact ⟨_, rfl⟩
  · exact ⟨_, rfl⟩

theorem classifyStatus_eq_none_of_lt (c : Nat) (h : c < 400) :
    classifyStatus c = none := by
  unfold classifyStatus
  have h1 : (c == 404) = false := by simp; omega
  have h2 : (c == 503) = false := by simp; omega
  have h3 : ¬ (500 ≤ c) := by omega
  have h4 : ¬ (400 ≤ c) := by omega
  simp [h1, h2, h3, h4]

theorem trySingleServer_resp (env : Env) (vname : String) (s : Server)
    (c : Nat) (body : BackendBody)
    (hh : env.healthy s = true)
    (hg : (s.skip_resource_check || (env.resource s).1 || (env.resource s).2)
      = true)
    (hb : env.backend s = .resp c body) :
    trySingleServer env vname s
      = (match classifyStatus c with
         | some e => .error e
         | none => .ok (translateBody vname body)) := by
  rw [trySingleServer, if_pos hh, if_pos hg, hb]

/-- C4: in buffered dispatch, for a candidate whose backend responds with
status `c`: a 404 is a per-candidate failure and the walk continues with the
next candidate; any status at least 500 likewise; any status in `[400, 500)`
likewise; any other status is a success that ends the candidate walk with the
translated response. -/
theorem C4_status_classification (env : Env) (vname : String) (s : Server)
    (rest : List Server) (total : Nat) (le : Option DispatchError)
    (c : Nat) (body : BackendBody)
    (hh : env.healthy s = true)
    (hg : (s.skip_resource_check || (env.resource s).1 || (env.resource s).2)
      = true)
    (hb : env.backend s = .resp c body) :
    (c = 404 → ∃ e, trySingleServer env vname s = .error e ∧
      walkServers env vname total (s :: rest) le
        = (s :: (walkServers env vname total rest (some e)).1,
           (walkServers env vname total rest (some e)).2)) ∧
    (500 ≤ c → ∃ e, trySingleServer env vname s = .error e ∧
      walkServers env vname total (s :: rest) le
        = (s :: (walkServers env vname total rest (some e)).1,
           (walkServers env vname total rest (some e)).2)) ∧
    (400 ≤ c ∧ c < 500 → ∃ e, trySingleServer env vname s = .error e ∧
      walkServers env vname total (s :: rest) le
        = (s :: (walkServers env vname total rest (some e)).1,
           (walkServers env vname total rest (some e)).2)) ∧
    (c < 400 → trySingleServer env vname s = .ok (translateBody vname body) ∧
      walkServers env vname total (s :: rest) le
        = ([s], .ok (translateBody vname body))) := by
  have htry := trySingleServer_resp env vname s c body hh hg hb
  have hfailCase : 400 ≤ c → ∃ e, trySingleServer env vname s = .error e ∧
      walkServers env vname total (s :: rest) le
        = (s :: (walkServers env vname total rest (some e)).1,
           (walkServers env vname total rest (some e)).2) := by
    intro hge
    rcases classifyStatus_isSome_of_ge c hge with ⟨e, hcl⟩
    have herr : trySingleServer env vname s = .error e := by rw [htry, hcl]
    exact ⟨e, herr, walkServers_cons_error env vname total s rest le herr⟩
  refine ⟨fun h404 => hfailCase (by omega), fun h5 => hfailCase (by omega),
    fun h4 => hfailCase h4.1, fun hlt => ?_⟩
  have hok : trySingleServer env vname s = .ok (translateBody vname body) := by
    rw [htry, classifyStatus_eq_none_of_lt c hlt]
  exact ⟨hok, walkServers_cons_ok env vname total s rest le hok⟩

/-- C4 witness: concrete success case — server C is healthy, gated through,
and answers 200, so its translated response ends the walk. -/
theorem C4_witness :
    trySingleServer envTiers "vm" serverC
        = .ok (translateBody "vm" (.jsonBody (some "m-c") "hello")) ∧
    walkServers envTiers "vm" 3 [serverC] none
        = ([serverC], .ok (translateBody "vm" (.jsonBody (some "m-c") "hello"))) :=
  (C4_status_classification envTiers "vm" serverC [] 3 none 200
    (.jsonBody (some "m-c") "hello") (by decide) (by decide) (by decide)).2.2.2
    (by omega)

/-! ## C8: terminal failures of buffered dispatch -/

/-- C8: buffered dispatch with an empty candidate list immediately ends in the
distinct no-servers-configured terminal failure; with a non-empty list on
which every candidate fails, it ends in the exhausted terminal failure whose
payload carries the number of candidates (all of them were tried) and the last
error observed, i.e. the error of the final candidate in the retry order. -/
theorem C8_terminal_failures (env : Env) (vname : String) (l : List Server) :
    (l = [] → proxyModelRequest env vname l = ([], .error .noServers)) ∧
    (l ≠ [] → (∀ s ∈ l, ∃ e, trySingleServer env vname s = .error e) →
      ∃ t e, (fullOrder l).getLast? = some t ∧
        trySingleServer env vname t = .error e ∧
        proxyModelRequest env vname l
          = (fullOrder l, .error (.exhausted l.length (some e)))) := by
  constructor
  · rintro rfl
    rfl
  · intro hne hfail
    have hfo : fullOrder l ≠ [] := by
      intro h
      exact hne ((h ▸ fullOrder_perm l).nil_eq).symm
    have hfail' : ∀ s ∈ fullOrder l, ∃ e, trySingleServer env vname s = .error e :=
      fun s hs => hfail s ((fullOrder_perm l).mem_iff.mp hs)
    rcases walkServers_all_fail env vname l.length (fullOrder l) none hfo hfail'
      with ⟨t, e, h1, h2, h3⟩
    refine ⟨t, e, h1, h2, ?_⟩
    rw [proxyModelRequest, if_neg (by simpa [List.isEmpty_iff] using hne)]
    exact h3

/-- C8 witness: one candidate whose backend call times out — dispatch ends in
the exhausted failure carrying the count 1 and that timeout as last error. -/
theorem C8_witness :
    ∃ t e, (fullOrder [serverA]).getLast? = some t ∧
      trySingleServer envAllFail "vm" t = .error e ∧
      proxyModelRequest envAllFail "vm" [serverA]
        = (fullOrder [serverA], .error (.exhausted 1 (some e))) :=
  (C8_terminal_failures envAllFail "vm" [serverA]).2 (by decide)
    (fun s hs => by
      rcases List.mem_singleton.mp hs with rfl
      exact ⟨.requestTimeout "http://a", by decide⟩)

/-! ## Lemmas: the usage-window cache -/

theorem lookup_setUsage (st : UsageHistory) (key : String × String) (t : Nat) :
    lookupUsage (setUsage st key t) key = some t := by
  induction st with
  | nil => simp [setUsage, lookupUsage]
  | cons e es ih =>
    by_cases h : e.1 == key
    · rw [show setUsage (e :: es) key t = (key, t) :: es from by
        simp [setUsage, h]]
      simp [lookupUsage]
    · rw [show setUsage (e :: es) key t = e :: setUsage es key t from by
        simp [setUsage, h]]
      rw [lookupUsage, List.find?_cons_of_neg _ (by simpa using h)]
      exact ih

theorem lookup_purgeExpired (st : UsageHistory) (key : String × String)
    (t now : Nat) (hl : lookupUsage st key = some t)
    (hfresh : now - t ≤ MODEL_USAGE_WINDOW) :
    lookupUsage (purgeExpired st now) key = some t := by
  induction st with
  | nil => simp [lookupUsage] at hl
  | cons e es ih =>
    by_cases h : e.1 == key
    · have het : e.2 = t := by
        have := hl
        rw [lookupUsage, List.find?_cons_of_pos _ (by simpa using h)] at this
        simpa using this
      have hkeep : (decide (now - e.2 ≤ MODEL_USAGE_WINDOW)) = true := by
        simp [het, hfresh]
      rw [purgeExpired, List.filter_cons, if_pos hkeep]
      rw [lookupUsage, List.find?_cons_of_pos _ (by simpa using h)]
      simpa using het
    · have hl' : lookupUsage es key = some t := by
        have := hl
        rw [lookupUsage, List.find?_cons_of_neg _ (by simpa using h)] at this
        exact this
      rw [purgeExpired, List.filter_cons]
      by_cases hkeep : (decide (now - e.2 ≤ MODEL_USAGE_WINDOW)) = true
      · rw [if_pos hkeep, lookupUsage,
          List.find?_cons_of_neg _ (by simpa using h)]
        exact ih hl'
      · rw [if_neg hkeep]
        exact ih hl'

theorem lookup_track_model_usage (st : UsageHistory) (u m : String)
    (now : Nat) :
    lookupUsage (track_model_usage st u m now) (u, m) = some now := by
  rw [track_model_usage]
  exact lookup_purgeExpired _ _ now now (lookup_setUsage st (u, m) now)
    (by simp [ MODEL_USAGE_WINDOW])

/-! ## C5: the same-model concurrency skip -/

/-- C5: whenever a model name is supplied and the usage-window entry for
`(serverUrl, modelName)` is younger than `SAME_MODEL_INTERVAL` (1200 s), the
resource-sufficiency check returns sufficient with the skip marker and the
skip reason `same_model_concurrent`, leaves the cache untouched, and performs
no remote call — for every possible remote outcome, i.e. regardless of the
backend's actual load. -/
theorem C5_same_model_skip (st : UsageHistory) (serverUrl serverType : String)
    (performanceGB : Int) (modelName : String) (now t : Nat)
    (remote : RemoteResult)
    (hl : lookupUsage st (serverUrl, modelName) = some t)
    (hyoung : now - t < SAME_MODEL_INTERVAL) :
    check_server_resource st serverUrl serverType performanceGB
        (some modelName) now remote
      = { sufficient := true, info := .skippedInfo "same_model_concurrent",
          history := st, remoteCalled := false } := by
  have hskip : should_skip_resource_check st serverUrl modelName now = true := by
    rw [should_skip_resource_check]
    simp [hl, hyoung]
  simp [check_server_resource, hskip]

/-- C5 witness: entry recorded at time 100, check at time 200 (age 100 s) with
a timing-out monitor — the check is skipped and reported sufficient. -/
theorem C5_witness :
    check_server_resource [(("u", "m"), 100)] "u" "CPU" 8 (some "m") 200
        .timeout
      = { sufficient := true, info := .skippedInfo "same_model_concurrent",
          history := [(("u", "m"), 100)], remoteCalled := false } :=
  C5_same_model_skip [(("u", "m"), 100)] "u" "CPU" 8 "m" 200 100 .timeout
    (by decide) (by decide)

/-! ## C6: when the usage-window cache is written -/

/-- C6 counterexample: a non-skipped check (the remote is contacted) that ends
in a timeout does *not* record the time of the check — the cache still has no
entry for the key afterwards, contradicting the claim that every non-skipped
check mutates the cache. -/
theorem C6_counterexample :
    (check_server_resource [] "u" "CPU" 8 (some "m") 5000 .timeout).remoteCalled
        = true ∧
    lookupUsage (check_server_resource [] "u" "CPU" 8 (some "m") 5000
        .timeout).history ("u", "m") = none := by
  decide

/-- C6 (amended): a non-skipped check records the time of the check only when
the monitor answers HTTP 200 with a success payload (the model name being
supplied); a non-skipped check that ends in a transport error, timeout,
non-200 status or malformed/unsuccessful payload leaves the cache unchanged. -/
theorem C6_amended_tracking (st : UsageHistory) (serverUrl serverType : String)
    (performanceGB : Int) (modelName : String) (now : Nat)
    (hskip : should_skip_resource_check st serverUrl modelName now = false) :
    (∀ suff available total usage,
      lookupUsage (check_server_resource st serverUrl serverType performanceGB
          (some modelName) now
          (.httpResp 200 (.success suff available total usage))).history
        (serverUrl, modelName) = some now) ∧
    (∀ remote, remoteSucceeded remote = false →
      (check_server_resource st serverUrl serverType performanceGB
          (some modelName) now remote).history = st) := by
  constructor
  · intro suff available total usage
    simp only [check_server_resource, hskip, Bool.false_eq_true, if_false]
    simpa using lookup_track_model_usage st serverUrl modelName now
  · intro remote hfail
    match remote with
    | .timeout => simp [check_server_resource, hskip]
    | .connError => simp [check_server_resource, hskip]
    | .httpResp status payload =>
      by_cases h200 : (status == 200) = true
      · have hs : status = 200 := by simpa using h200
        subst hs
        match payload with
        | .success a b c d => simp [remoteSucceeded] at hfail
        | .failure msg => simp [check_server_resource, hskip]
        | .malformed => simp [check_server_resource, hskip]
      · simp [check_server_resource, hskip, h200]

/-- C6 witness for the amended claim: on an empty cache (so the check is not
skipped) a well-formed success reply records time 5000 under the key, while a
timeout leaves the cache empty. -/
theorem C6_amended_witness :
    lookupUsage (check_server_resource [] "u" "CPU" 8 (some "m") 5000
        (.httpResp 200 (.success true 1 2 3))).history ("u", "m") = some 5000 ∧
    (check_server_resource [] "u" "CPU" 8 (some "m") 5000 .timeout).history
      = [] :=
  ⟨(C6_amended_tracking [] "u" "CPU" 8 "m" 5000 (by decide)).1 true 1 2 3,
   (C6_amended_tracking [] "u" "CPU" 8 "m" 5000 (by decide)).2 .timeout
     (by decide)⟩

/-! ## C7: the gate is never optimistic on failure -/

/-- C7: every resource-sufficiency check that is not skipped and whose remote
interaction is anything but a well-formed HTTP-200 success — transport error,
timeout, non-200 status, unsuccessful or malformed payload — yields
`sufficient = false` together with an error detail. -/
theorem C7_pessimistic_on_failure (st : UsageHistory)
    (serverUrl serverType : String) (performanceGB : Int)
    (modelName : Option String) (now : Nat) (remote : RemoteResult)
    (hskip : (match modelName with
              | some m => should_skip_resource_check st serverUrl m now
              | none => false) = false)
    (hfail : remoteSucceeded remote = false) :
    (check_server_resource st serverUrl serverType performanceGB modelName now
        remote).sufficient = false ∧
    ∃ msg, (check_server_resource st serverUrl serverType performanceGB
        modelName now remote).info = .errorInfo msg := by
  match remote with
  | .timeout =>
    exact ⟨by simp [check_server_resource, hskip], "resource monitor timed out",
      by simp [check_server_resource, hskip]⟩
  | .connError =>
    exact ⟨by simp [check_server_resource, hskip],
      "resource monitor unreachable", by simp [check_server_resource, hskip]⟩
  | .httpResp status payload =>
    by_cases h200 : (status == 200) = true
    · have hs : status = 200 := by simpa using h200
      subst hs
      match payload with
      | .success a b c d => simp [remoteSucceeded] at hfail
      | .failure msg =>
        exact ⟨by simp [check_server_resource, hskip], msg,
          by simp [check_server_resource, hskip]⟩
      | .malformed =>
        exact ⟨by simp [check_server_resource, hskip],
          "resource check exception", by simp [check_server_resource, hskip]⟩
    · exact ⟨by simp [check_server_resource, hskip, h200],
        "resource monitor bad status",
        by simp [check_server_resource, hskip, h200]⟩

/-- C7 witness: non-skipped check against a monitor that answers a non-success
payload — the gate reports insufficient with an error detail. -/
theorem C7_witness :
    (check_server_resource [] "u" "GPU" 16 (some "m") 5000
        (.httpResp 200 (.failure "boom"))).sufficient = false ∧
    ∃ msg, (check_server_resource [] "u" "GPU" 16 (some "m") 5000
        (.httpResp 200 (.failure "boom"))).info = .errorInfo msg :=
  C7_pessimistic_on_failure [] "u" "GPU" 16 (some "m") 5000
    (.httpResp 200 (.failure "boom")) (by decide) (by decide)

/-! ## Lemmas: the cumulative-weight walk -/

theorem weighted_random_select_cons_cons (a b : Server) (t : List Server)
    (u : ℚ) (k : Nat) :
    weighted_random_select (a :: b :: t) u k
      = if weightSum (a :: b :: t) ≤ 0
        then (a :: b :: t)[k % (a :: b :: t).length]?
        else
          match cumulativeWalk u (a :: b :: t) 0 with
          | some s => some s
          | none => (a :: b :: t).getLast? := rfl

theorem cumulativeWalk_spec (u : ℚ) :
    ∀ (servers : List Server) (current : ℚ) (i : Nat),
      i < servers.length →
      u ≤ current + prefixWeightSum servers (i + 1) →
      (∀ j, j < i → ¬ (u ≤ current + prefixWeightSum servers (j + 1))) →
      cumulativeWalk u servers current = servers[i]?
  | [], _, i, hi, _, _ => absurd hi (by simp)
  | s :: rest, current, i, hi, h1, h2 => by
    by_cases h0 : u ≤ current + (s.weight : ℚ)
    · have hi0 : i = 0 := by
        by_contra hne
        rcases Nat.exists_eq_succ_of_ne_zero hne with ⟨i', rfl⟩
        exact h2 0 (Nat.succ_pos i') (by simpa [prefixWeightSum] using h0)
      subst hi0
      simp [cumulativeWalk, h0]
    · have hne : i ≠ 0 := by
        intro h
        subst h
        exact h0 (by simpa [prefixWeightSum] using h1)
      rcases Nat.exists_eq_succ_of_ne_zero hne with ⟨i', rfl⟩
      rw [show cumulativeWalk u (s :: rest) current
          = cumulativeWalk u rest (current + (s.weight : ℚ)) from by
        simp [cumulativeWalk, h0]]
      have hpre : ∀ n, prefixWeightSum (s :: rest) (n + 1)
          = (s.weight : ℚ) + prefixWeightSum rest n := fun n => rfl
      have h1' : u ≤ (current + (s.weight : ℚ))
          + prefixWeightSum rest (i' + 1) := by
        have := h1
        rw [hpre] at this
        linarith
      have h2' : ∀ j, j < i' →
          ¬ (u ≤ (current + (s.weight : ℚ)) + prefixWeightSum rest (j + 1)) := by
        intro j hj hle
        apply h2 (j + 1) (Nat.succ_lt_succ hj)
        rw [hpre]
        linarith
      rw [cumulativeWalk_spec u rest (current + (s.weight : ℚ)) i'
        (by simpa using hi) h1' h2']
      simp

theorem cumulativeWalk_mem {u : ℚ} :
    ∀ {servers : List Server} {current : ℚ} {s : Server},
      cumulativeWalk u servers current = some s → s ∈ servers
  | [], _, _, h => by simp [cumulativeWalk] at h
  | t :: rest, current, s, h => by
    by_cases h0 : u ≤ current + (t.weight : ℚ)
    · rw [show cumulativeWalk u (t :: rest) current = some t from by
        simp [cumulativeWalk, h0]] at h
      injection h with h'
      exact h' ▸ List.mem_cons_self t rest
    · rw [show cumulativeWalk u (t :: rest) current
          = cumulativeWalk u rest (current + (t.weight : ℚ)) from by
        simp [cumulativeWalk, h0]] at h
      exact List.mem_cons_of_mem t (cumulativeWalk_mem h)

/-! ## C9: the weighted-random single pick -/

/-- C9: weighted-random single pick over a candidate list.  When the total
weight is nonpositive, the pick is uniform among the candidates: the drawn
index `k` selects exactly the `k`-th candidate.  When the total weight is
positive, the drawn value `u` selects the candidate at the cumulative-weight
bracket it falls into: if `u` reaches the cumulative weight through candidate
`i` but none of the earlier prefixes, candidate `i` is chosen. -/
theorem C9_weighted_random_selection (servers : List Server) (u : ℚ)
    (k i : Nat) :
    (weightSum servers ≤ 0 → k < servers.length →
      weighted_random_select servers u k = servers[k]?) ∧
    (0 < weightSum servers → i < servers.length →
      u ≤ prefixWeightSum servers (i + 1) →
      (∀ j, j < i → ¬ (u ≤ prefixWeightSum servers (j + 1))) →
      weighted_random_select servers u k = servers[i]?) := by
  match servers with
  | [] =>
    exact ⟨fun _ hk => absurd hk (by simp), fun _ hi _ _ => absurd hi (by simp)⟩
  | [s] =>
    constructor
    · intro _ hk
      have hk0 : k = 0 := Nat.lt_one_iff.mp (by simpa using hk)
      subst hk0
      rfl
    · intro _ hi _ _
      have hi0 : i = 0 := Nat.lt_one_iff.mp (by simpa using hi)
      subst hi0
      rfl
  | a :: b :: t =>
    constructor
    · intro hle hk
      rw [weighted_random_select_cons_cons, if_pos hle, Nat.mod_eq_of_lt hk]
    · intro hpos hi h1 h2
      have hw := cumulativeWalk_spec u (a :: b :: t) 0 i hi
        (by simpa using h1) (fun j hj => by simpa using h2 j hj)
      have hx := List.getElem?_eq_getElem hi
      calc weighted_random_select (a :: b :: t) u k
          = (match cumulativeWalk u (a :: b :: t) 0 with
             | some s => some s
             | none => (a :: b :: t).getLast?) := by
            rw [weighted_random_select_cons_cons, if_neg (not_le.mpr hpos)]
        _ = (a :: b :: t)[i]? := by rw [hw, hx]

/-- C9 witness: weights 30 and 70 with draw 40 land in the second candidate's
bracket (30 < 40 ≤ 100); two zero-weight candidates with drawn index 1 yield
the second candidate uniformly. -/
theorem C9_witness :
    weighted_random_select [serverA, serverB] 40 0 = [serverA, serverB][1]? ∧
    weighted_random_select [serverZ1, serverZ2] 40 1 = [serverZ1, serverZ2][1]? :=
  ⟨(C9_weighted_random_selection [serverA, serverB] 40 0 1).2 (by decide)
      (by decide) (by norm_num [prefixWeightSum, serverA, serverB])
      (fun j hj => by
        have hj0 : j = 0 := Nat.lt_one_iff.mp hj
        subst hj0
        norm_num [prefixWeightSum, serverA, serverB]),
   (C9_weighted_random_selection [serverZ1, serverZ2] 40 1 0).1 (by decide)
      (by decide)⟩

/-! ## C10: the pick always lands in the list -/

/-- C10: for every non-empty candidate list, every drawn value and every drawn
index, the weighted-random selection returns some element of the list — the
final fallback returning the last element covers a drawn value not captured by
the cumulative-weight walk. -/
theorem C10_select_in_list (servers : List Server) (u : ℚ) (k : Nat)
    (hne : servers ≠ []) :
    ∃ s, weighted_random_select servers u k = some s ∧ s ∈ servers := by
  match servers with
  | [] => exact absurd rfl hne
  | [s] => exact ⟨s, rfl, by simp⟩
  | a :: b :: t =>
    by_cases hle : weightSum (a :: b :: t) ≤ 0
    · have hklt : k % (a :: b :: t).length < (a :: b :: t).length :=
        Nat.mod_lt _ (by simp)
      refine ⟨(a :: b :: t)[k % (a :: b :: t).length], ?_,
        List.getElem_mem hklt⟩
      rw [weighted_random_select_cons_cons, if_pos hle]
      exact List.getElem?_eq_getElem hklt
    · cases hw : cumulativeWalk u (a :: b :: t) 0 with
      | some s =>
        refine ⟨s, ?_, cumulativeWalk_mem hw⟩
        rw [weighted_random_select_cons_cons, if_neg hle, hw]
      | none =>
        refine ⟨(a :: b :: t).getLast (by simp), ?_, List.getLast_mem _⟩
        rw [weighted_random_select_cons_cons, if_neg hle, hw]
        exact List.getLast?_eq_getLast _ _

/-- C10 witness: a concrete draw outside every bracket still returns the last
candidate. -/
theorem C10_witness :
    ∃ s, weighted_random_select [serverA, serverB] 1000 0 = some s ∧
      s ∈ [serverA, serverB] :=
  C10_select_in_list [serverA, serverB] 1000 0 (by decide)
